import Mathlib

/-!
Verification development for the `Spider` web-scraping class (`spider.py`).

Python strings are modelled as `List Char` (`PyStr`).  The third-party
helpers the class calls — `urllib.parse.quote`, `urllib.parse.urlparse`,
`urllib.parse.urljoin`, `urllib.parse.urlunparse` and `validators.url` —
are modelled faithfully from their library sources (CPython 3.10 for
`urllib.parse`, the regex of `validators` 0.20 for `validators.url`);
each model carries a doc comment naming what it models.  Python floats
are modelled as exact dyadic rationals with IEEE-754 binary64
round-to-nearest-even applied after every arithmetic operation, which is
exact arithmetic for every value the scroll loop produces.  All
definitions are structural or fuel-based so that concrete runs evaluate
inside the kernel.
-/

/-- Python strings are finite sequences of characters. -/
abbrev PyStr := List Char

/-- Coerce a Lean string literal to the `PyStr` model. -/
def str (s : String) : PyStr := s.data

/-- Split a list at every occurrence of the character `c`
    (model of Python `s.split(c)` for a one-character separator;
    splitting never yields the empty list). -/
def splitChar (c : Char) : PyStr → List PyStr
  | [] => [[]]
  | x :: xs =>
    match splitChar c xs with
    | [] => if x = c then [[], []] else [[x]]
    | p :: ps => if x = c then [] :: p :: ps else (x :: p) :: ps

/-- Join a list of pieces with the character `c` between them
    (model of Python `c.join(parts)`). -/
def joinChar (c : Char) : List PyStr → PyStr
  | [] => []
  | [p] => p
  | p :: ps => p ++ c :: joinChar c ps

/-- Lowercase an ASCII letter, leave every other character unchanged
    (model of `str.lower` per character / `re.IGNORECASE` matching). -/
def lowerChar (c : Char) : Char :=
  if 65 ≤ c.toNat ∧ c.toNat ≤ 90 then Char.ofNat (c.toNat + 32) else c

/-- Does `sub` occur as a contiguous run inside `l`?
    (model of Python `sub in s` on strings). -/
def hasSub (sub : PyStr) : PyStr → Bool
  | [] => sub.isEmpty
  | x :: xs => sub.isPrefixOf (x :: xs) || hasSub sub xs

/-- Python `str.split(sep)` for a non-empty multi-character separator:
    split on each non-overlapping occurrence, left to right.
    `fuel` bounds the scan; `s.length + 1` always suffices. -/
def pySplitAux (sep : PyStr) : Nat → PyStr → PyStr → List PyStr
  | 0, acc, rest => [acc.reverse ++ rest]
  | fuel + 1, acc, rest =>
    if sep.isPrefixOf rest then
      acc.reverse :: pySplitAux sep fuel [] (rest.drop sep.length)
    else
      match rest with
      | [] => [acc.reverse]
      | c :: cs => pySplitAux sep fuel (c :: acc) cs

/-- Model of Python `s.split(sep)` for non-empty `sep`. -/
def pySplit (sep s : PyStr) : List PyStr :=
  pySplitAux sep (s.length + 1) [] s

/- ### Model of `urllib.parse.quote` (per-character use) -/

/-- The characters `urllib.parse.quote` leaves unescaped with the default
    `safe='/'`: ASCII letters, digits, `_.-~` and `/`. -/
def isQuoteSafe (c : Char) : Bool :=
  c.isAlpha || c.isDigit || c = '_' || c = '.' || c = '-' || c = '~' || c = '/'

/-- Uppercase hexadecimal digit of `k % 16`. -/
def hexDigitChar (k : Nat) : Char :=
  if k % 16 < 10 then Char.ofNat (48 + k % 16) else Char.ofNat (55 + k % 16)

/-- Percent-encoding of one byte: `%XX` with uppercase hex digits. -/
def pctByte (b : Nat) : List Char :=
  ['%', hexDigitChar (b / 16), hexDigitChar b]

/-- UTF-8 byte sequence of a Unicode code point (as `Nat`s below 256). -/
def utf8Bytes (n : Nat) : List Nat :=
  if n < 0x80 then [n]
  else if n < 0x800 then [0xC0 + n / 64, 0x80 + n % 64]
  else if n < 0x10000 then
    [0xE0 + n / 4096, 0x80 + n / 64 % 64, 0x80 + n % 64]
  else
    [0xF0 + n / 262144, 0x80 + n / 4096 % 64, 0x80 + n / 64 % 64, 0x80 + n % 64]

/-- Model of `urllib.parse.quote(c, safe='/')` on a single character:
    safe characters pass through, everything else is percent-encoded
    byte by byte (UTF-8). -/
def pyQuoteChar (c : Char) : List Char :=
  if isQuoteSafe c then [c] else ((utf8Bytes c.toNat).map pctByte).flatten

/-- Model of `"".join(quote(i) for i in url)` from `modify_verify_url`:
    quote each character of the string and concatenate. -/
def pyQuoteJoin (url : PyStr) : PyStr :=
  (url.map pyQuoteChar).flatten

/- ### Model of `validators.url` (validators 0.20, regex-based) -/

/-- Characters the validators-regex accepts inside userinfo
    (apostrophe written via its code point). -/
def uiChar (c : Char) : Bool :=
  c.isAlphanum || (str "-._~%!$&()*+,;=:").contains c ||
    c = Char.ofNat 39 || 0xa1 ≤ c.toNat

/-- Characters the validators-regex accepts inside a host label. -/
def hostChar (c : Char) : Bool :=
  c.isAlphanum || c = '-' || 0xa1 ≤ c.toNat

/-- Characters the validators-regex accepts inside the resource path. -/
def pathChar (c : Char) : Bool :=
  c.isAlphanum || (str "-._~%!$&()*+,;=:@/").contains c ||
    c = Char.ofNat 39 || 0xa1 ≤ c.toNat

/-- Whitespace for the purposes of the regex `\S` class. -/
def isSpaceChar (c : Char) : Bool :=
  c = ' ' || c = Char.ofNat 9 || c = Char.ofNat 10 || c = Char.ofNat 11 ||
    c = Char.ofNat 12 || c = Char.ofNat 13

/-- Parse the digits of a decimal numeral. -/
def decVal (l : PyStr) : Nat :=
  l.foldl (fun a c => a * 10 + (c.toNat - 48)) 0

/-- One dotted-quad octet: one to three digits, value at most 255. -/
def octetOk (l : PyStr) : Bool :=
  !l.isEmpty && l.length ≤ 3 && l.all Char.isDigit && decVal l ≤ 255

/-- Dotted-decimal IPv4 address (model of the regex's IP branch). -/
def isIPv4 (h : PyStr) : Bool :=
  let parts := splitChar '.' h
  parts.length = 4 && parts.all octetOk

/-- Host acceptance, modelling the regex's alternation:
    `localhost`, a dotted-quad IP, or dot-separated labels whose final
    label (the TLD) is alphabetic of length at least two. -/
def hostOk (h : PyStr) : Bool :=
  if h = str "localhost" then true
  else if isIPv4 h then true
  else
    let labels := splitChar '.' h
    decide (2 ≤ labels.length) &&
      labels.all (fun l => !l.isEmpty && l.all hostChar) &&
      (match labels.getLast? with
       | some tld => decide (2 ≤ tld.length) &&
           tld.all (fun c => c.isAlpha || 0xa1 ≤ c.toNat)
       | none => false)

/-- Port: two to five digits. -/
def portOk (p : PyStr) : Bool :=
  decide (2 ≤ p.length) && decide (p.length ≤ 5) && p.all Char.isDigit

/-- Split a list at the last occurrence of `c`, when present. -/
def splitLast (c : Char) (l : PyStr) : Option (PyStr × PyStr) :=
  match splitChar c l with
  | [] => none
  | [_] => none
  | p :: ps => some ((joinChar c (p :: ps.dropLast)), ps.getLastD [])

/-- Authority (userinfo, host, port) acceptance. -/
def authOk (auth : PyStr) : Bool :=
  let hostport :=
    match splitLast '@' auth with
    | some (ui, hp) => if !ui.isEmpty && ui.all uiChar then some hp else none
    | none => some auth
  match hostport with
  | none => false
  | some hp =>
    let host :=
      match splitLast ':' hp with
      | some (h, p) => if portOk p then some h else none
      | none => some hp
    match host with
    | none => false
    | some h => hostOk h

/-- Query-or-fragment tail: `(?:\?\S*)?(?:#\S*)?$`. -/
def qfOk : PyStr → Bool
  | [] => true
  | c :: cs => (c = '?' || c = '#') && cs.all (fun x => !isSpaceChar x)

/-- Resource path followed by optional query and fragment:
    `(?:/[path-chars]*)?(?:\?\S*)?(?:#\S*)?$`. -/
def restOk : PyStr → Bool
  | [] => true
  | c :: cs =>
    if c = '/' then qfOk (cs.dropWhile pathChar)
    else qfOk (c :: cs)

/-- Strip a recognised protocol prefix (`https://`, `http://`, `ftp://`)
    from an already lowercased string. -/
def schemeRest (t : PyStr) : Option PyStr :=
  if (str "https://").isPrefixOf t then some (t.drop 8)
  else if (str "http://").isPrefixOf t then some (t.drop 7)
  else if (str "ftp://").isPrefixOf t then some (t.drop 6)
  else none

/-- Model of `validators.url` (validators 0.20): the anchored regex
    `^(?:(?:https?|ftp)://)(userinfo@)?(host)(:port)?(/path)?(\?query)?(#frag)$`
    matched case-insensitively.  The IPv6 branch and the finer points of
    internationalised host names are not needed by this repository and are
    left out of the host model. -/
def validators_url (s : PyStr) : Bool :=
  let t := s.map lowerChar
  match schemeRest t with
  | none => false
  | some rest =>
    let auth := rest.takeWhile (fun c => !(c = '/' || c = '?' || c = '#'))
    let tail := rest.drop auth.length
    authOk auth && restOk tail

/- ### Model of `urllib.parse` (CPython 3.10) -/

/-- Characters allowed in a URL scheme after the first letter
    (`urllib.parse.scheme_chars`). -/
def schemeChar (c : Char) : Bool :=
  c.isAlphanum || c = '+' || c = '-' || c = '.'

/-- Result record of `urllib.parse.urlparse`. -/
structure UrlParts where
  scheme : PyStr
  netloc : PyStr
  path : PyStr
  params : PyStr
  query : PyStr
  fragment : PyStr
deriving DecidableEq

/-- Index of the first occurrence of `c`, if any. -/
def findCharIdx (c : Char) : PyStr → Option Nat
  | [] => none
  | x :: xs =>
    if x = c then some 0
    else match findCharIdx c xs with
      | some i => some (i + 1)
      | none => none

/-- Split once at the first occurrence of `c`
    (model of Python `s.split(c, 1)` when `c` occurs). -/
def splitOnce (c : Char) (l : PyStr) : PyStr × PyStr :=
  match findCharIdx c l with
  | some i => (l.take i, l.drop (i + 1))
  | none => (l, [])

/-- Model of `urllib.parse._splitnetloc`: the network location extends to
    the first `/`, `?` or `#`. -/
def splitnetloc (l : PyStr) : PyStr × PyStr :=
  let net := l.takeWhile (fun c => !(c = '/' || c = '?' || c = '#'))
  (net, l.drop net.length)

/-- Model of `urllib.parse.urlsplit(url, scheme, allow_fragments=True)`
    (CPython 3.10): remove tab/CR/LF, detect and lowercase the scheme
    (falling back to the `scheme0` argument), split off the netloc after
    `//`, then the fragment at the first `#`, then the query at the first
    `?`.  Returns (scheme, netloc, path, query, fragment). -/
def urlsplitM (url0 scheme0 : PyStr) : PyStr × PyStr × PyStr × PyStr × PyStr :=
  let url := url0.filter
    (fun c => !(c = Char.ofNat 9 || c = Char.ofNat 10 || c = Char.ofNat 13))
  let (scheme, url) :=
    match findCharIdx ':' url with
    | some i =>
      if 0 < i ∧ (url.take 1).all Char.isAlpha ∧ (url.take i).all schemeChar
      then ((url.take i).map lowerChar, url.drop (i + 1))
      else (scheme0, url)
    | none => (scheme0, url)
  let (netloc, url) :=
    if (str "//").isPrefixOf url then splitnetloc (url.drop 2) else ([], url)
  let (url, fragment) :=
    if url.contains '#' then splitOnce '#' url else (url, [])
  let (url, query) :=
    if url.contains '?' then splitOnce '?' url else (url, [])
  (scheme, netloc, url, query, fragment)

/-- Model of `urllib.parse._splitparams`: parameters start at the first
    `;` of the last path segment. -/
def splitparams (url : PyStr) : PyStr × PyStr :=
  if url.contains '/' then
    match splitLast '/' url with
    | some (dir, last) =>
      if last.contains ';' then
        let (seg, par) := splitOnce ';' last
        (dir ++ '/' :: seg, par)
      else (url, [])
    | none => (url, [])
  else splitOnce ';' url

/-- Model of `urllib.parse.urlparse(url, scheme='')`:
    `urlsplit` plus the params split. -/
def urlparseM (url scheme0 : PyStr) : UrlParts :=
  let (scheme, netloc, p, query, fragment) := urlsplitM url scheme0
  let (path, params) := if p.contains ';' then splitparams p else (p, [])
  ⟨scheme, netloc, path, params, query, fragment⟩

/-- Model of `urllib.parse.urlunsplit`. -/
def urlunsplitM (scheme netloc url query fragment : PyStr) : PyStr :=
  let url :=
    if !netloc.isEmpty || (!url.isEmpty && (str "//").isPrefixOf url) then
      let url := if !url.isEmpty && url.take 1 ≠ str "/" then '/' :: url else url
      str "//" ++ netloc ++ url
    else url
  let url := if !scheme.isEmpty then scheme ++ ':' :: url else url
  let url := if !query.isEmpty then url ++ '?' :: query else url
  if !fragment.isEmpty then url ++ '#' :: fragment else url

/-- Model of `urllib.parse.urlunparse`. -/
def urlunparseM (p : UrlParts) : PyStr :=
  let url := if !p.params.isEmpty then p.path ++ ';' :: p.params else p.path
  urlunsplitM p.scheme p.netloc url p.query p.fragment

/-- Schemes for which relative resolution applies
    (`urllib.parse.uses_relative`). -/
def usesRelative : List PyStr :=
  [str "", str "ftp", str "http", str "gopher", str "nntp", str "imap",
   str "wais", str "file", str "https", str "shttp", str "mms",
   str "prospero", str "rtsp", str "rtspu", str "sftp", str "svn",
   str "svn+ssh", str "ws", str "wss"]

/-- Schemes that use a network location (`urllib.parse.uses_netloc`). -/
def usesNetloc : List PyStr :=
  [str "", str "ftp", str "http", str "gopher", str "nntp", str "telnet",
   str "imap", str "wais", str "file", str "mms", str "https", str "shttp",
   str "snews", str "prospero", str "rtsp", str "rtspu", str "rsync",
   str "svn", str "svn+ssh", str "sftp", str "nfs", str "git",
   str "git+ssh", str "ws", str "wss"]

/-- Keep the first and last element, drop empty strings in between
    (Python `segments[1:-1] = filter(None, segments[1:-1])`). -/
def filterMiddle (segs : List PyStr) : List PyStr :=
  match segs with
  | [] => []
  | [s] => [s]
  | s :: rest =>
    s :: (rest.dropLast.filter (fun l => !l.isEmpty)) ++ [rest.getLastD []]

/-- Dot-segment resolution loop of `urljoin`: `..` pops, `.` is skipped,
    anything else is appended. -/
def resolveSegs : List PyStr → List PyStr → List PyStr
  | acc, [] => acc
  | acc, seg :: rest =>
    if seg = str ".." then resolveSegs acc.dropLast rest
    else if seg = str "." then resolveSegs acc rest
    else resolveSegs (acc ++ [seg]) rest

/-- Model of `urllib.parse.urljoin(base, url)` (CPython 3.10). -/
def urljoinM (base url : PyStr) : PyStr :=
  if base.isEmpty then url
  else if url.isEmpty then base
  else
    let bp := urlparseM base []
    let up := urlparseM url bp.scheme
    if up.scheme ≠ bp.scheme ∨ up.scheme ∉ usesRelative then url
    else
      let step :=
        if up.scheme ∈ usesNetloc then
          if !up.netloc.isEmpty then none
          else some bp.netloc
        else some up.netloc
      match step with
      | none => urlunparseM up
      | some netloc =>
        if up.path.isEmpty ∧ up.params.isEmpty then
          let query := if up.query.isEmpty then bp.query else up.query
          urlunparseM ⟨up.scheme, netloc, bp.path, bp.params, query, up.fragment⟩
        else
          let baseParts :=
            let parts := splitChar '/' bp.path
            if parts.getLastD [] ≠ [] then parts.dropLast else parts
          let segments :=
            if up.path.take 1 = str "/" then splitChar '/' up.path
            else filterMiddle (baseParts ++ splitChar '/' up.path)
          let resolved := resolveSegs [] segments
          let resolved :=
            if segments.getLastD [] = str "." ∨ segments.getLastD [] = str ".."
            then resolved ++ [[]] else resolved
          let joined := joinChar '/' resolved
          let path := if joined.isEmpty then str "/" else joined
          urlunparseM ⟨up.scheme, netloc, path, up.params, up.query, up.fragment⟩

theorem modelCheck_urlparse :
    urlparseM (str "https://example.com/item?ref=1#top") [] =
      ⟨str "https", str "example.com", str "/item", [], str "ref=1", str "top"⟩ := by
  decide

theorem modelCheck_urljoin_absolute_path :
    urljoinM (str "https://example.com/shop") (str "/item%3Fref%3D1%23top") =
      str "https://example.com/item%3Fref%3D1%23top" := by
  decide

theorem modelCheck_urljoin_relative_path :
    urljoinM (str "https://example.com/shop") (str "mailto%3Aa%40b.com") =
      str "https://example.com/mailto%3Aa%40b.com" := by
  decide

theorem modelCheck_validators :
    validators_url (str "https://example.com/item?ref=1#top") = true ∧
    validators_url (str "https://example.com/item%3Fref%3D1%23top") = true ∧
    validators_url (str "/item?ref=1#top") = false ∧
    validators_url (str "mailto:a@b.com") = false ∧
    validators_url (str "") = false ∧
    validators_url (str "https://example.com/shop") = true := by
  decide

theorem modelCheck_quote :
    pyQuoteJoin (str "/item?ref=1#top") = str "/item%3Fref%3D1%23top" := by
  decide

/- ### `Spider.modify_verify_url` -/

/-- Embedding of `Spider.modify_verify_url(root, url)` (spider.py:174-205):
    a URL that `validators.url` accepts is returned unchanged; otherwise the
    string is percent-quoted character by character; if the quoted form is
    still invalid it is joined against `root`, reduced to
    scheme + `://` + netloc + path, and returned when that reduction
    validates, else the empty string; if the quoted form did validate, the
    original `url` is returned. -/
def modify_verify_url (root url : PyStr) : PyStr :=
  if validators_url url then url
  else
    let clean_href := pyQuoteJoin url
    if !validators_url clean_href then
      let href := urljoinM root clean_href
      let parsed_href := urlparseM href []
      let valid_href := parsed_href.scheme ++ str "://" ++ parsed_href.netloc
        ++ parsed_href.path
      if validators_url valid_href then valid_href else []
    else url

/-- Modelled from the spec: `strip(u)`, the URL with query string and
    fragment removed, keeping only scheme + host + path.  Used solely to
    compare the spec's claimed result against what the code returns. -/
def stripUrl (u : PyStr) : PyStr :=
  let p := urlparseM u []
  p.scheme ++ str "://" ++ p.netloc ++ p.path

/-- The urljoin-based resolution arm of `modify_verify_url`
    (spider.py:192-201 followed by the final `return ""`). -/
def urljoinResolution (root url : PyStr) : PyStr :=
  let href := urljoinM root (pyQuoteJoin url)
  let parsed_href := urlparseM href []
  let valid_href := parsed_href.scheme ++ str "://" ++ parsed_href.netloc
    ++ parsed_href.path
  if validators_url valid_href then valid_href else []

/- ### `Spider.get_all_sublinks_from_soup` and
       `Spider.get_all_images_from_soup` -/

/-- Python `set.add` on a set represented as a duplicate-free list. -/
def setAdd (l : List PyStr) (x : PyStr) : List PyStr :=
  if x ∈ l then l else l ++ [x]

/-- One pass of the anchor loop of `get_all_sublinks_from_soup`
    (spider.py:145-153): skip an empty or absent href, otherwise normalize
    it and add the result unless normalization failed or the normalized
    link contains `mailto`. -/
def sublinkStep (root : PyStr) (temp_set : List PyStr) (h : Option PyStr) :
    List PyStr :=
  match h with
  | none => temp_set
  | some href =>
    if href.isEmpty then temp_set
    else
      let clean_href := modify_verify_url root href
      if !clean_href.isEmpty && !hasSub (str "mailto") clean_href then
        setAdd temp_set clean_href
      else temp_set

/-- Embedding of `Spider.get_all_sublinks_from_soup` (spider.py:135-155).
    The parsed document is abstracted to the list of `href` attribute values
    of its anchor tags, in document order (`None` when the tag has no
    `href`). -/
def get_all_sublinks_from_soup (root : PyStr) (hrefs : List (Option PyStr)) :
    List PyStr :=
  hrefs.foldl (sublinkStep root) []

/-- Python `set.add` for (alt, src) pairs. -/
def setAddPair (l : List (Option PyStr × Option PyStr))
    (x : Option PyStr × Option PyStr) : List (Option PyStr × Option PyStr) :=
  if x ∈ l then l else l ++ [x]

/-- Loop of `get_all_images_from_soup`: `temp_links` records the `src`
    values already seen, `temp_set` the resulting (alt, src) pairs. -/
def imagesLoop (imgs : List (Option PyStr × Option PyStr))
    (temp_links : List (Option PyStr))
    (temp_set : List (Option PyStr × Option PyStr)) :
    List (Option PyStr × Option PyStr) :=
  match imgs with
  | [] => temp_set
  | (alt, src) :: rest =>
    if src ∈ temp_links then imagesLoop rest temp_links temp_set
    else imagesLoop rest (temp_links ++ [src]) (setAddPair temp_set (alt, src))

/-- Embedding of `Spider.get_all_images_from_soup` (spider.py:157-172).
    The document is abstracted to the list of its `img` tags' (alt, src)
    attribute pairs in document order.  A pair is added only when its `src`
    has not been seen before. -/
def get_all_images_from_soup (imgs : List (Option PyStr × Option PyStr)) :
    List (Option PyStr × Option PyStr) :=
  imagesLoop imgs [] []

/- ### `Spider.get_elements_xpaths` -/

/-- Decimal numeral of a natural number (model of Python `str(index)`). -/
def natToStrAux : Nat → Nat → PyStr
  | 0, _ => []
  | fuel + 1, n =>
    if n < 10 then [Char.ofNat (48 + n)]
    else natToStrAux fuel (n / 10) ++ [Char.ofNat (48 + n % 10)]

/-- Decimal numeral of a natural number. -/
def natToStr (n : Nat) : PyStr := natToStrAux (n + 1) n

/-- Outcome of a `get_elements_xpaths` call.  `ok` is a normal return,
    `unboundLocalError` the `UnboundLocalError` Python raises when a local
    variable is read before any assignment, `indexError` the IndexError on
    a template without the placeholder, `outOfFuel` means the modelled run
    was cut off while the loop was still going. -/
inductive XpathsResult where
  | ok : List Nat → XpathsResult
  | unboundLocalError : XpathsResult
  | indexError : XpathsResult
  | outOfFuel : XpathsResult
deriving DecidableEq

/-- Did the call return normally? -/
def XpathsResult.isNormal : XpathsResult → Bool
  | ok _ => true
  | _ => false

/-- Embedding of the `while True` loop of `Spider.get_elements_xpaths`
    (spider.py:228-241).  `page` abstracts
    `driver.find_element(By.XPATH, path)`: `some e` is a found element
    handle, `none` means the lookup raises `NoSuchElementException`.
    `elementVar` is the Python local `element`: `none` while it has never
    been assigned.  Each iteration builds
    `pre ++ "[" ++ str(index) ++ "]" ++ suf`; a successful lookup rebinds
    `element`, a miss is caught by `except NoSuchElementException: pass`,
    which leaves `element` as it was.  Then `if element != None` appends
    the handle and advances the index — the `else: break` arm would need
    `element` to hold Python `None`, which no path assigns. -/
def xpathsLoop (page : PyStr → Option Nat) (pre suf : PyStr) :
    Nat → Nat → Option Nat → List Nat → XpathsResult
  | 0, _, _, _ => .outOfFuel
  | fuel + 1, index, elementVar, list_of_elements =>
    let current_path := pre ++ '[' :: natToStr index ++ ']' :: suf
    let elementVar :=
      match page current_path with
      | some e => some e
      | none => elementVar
    match elementVar with
    | none => .unboundLocalError
    | some e =>
      xpathsLoop page pre suf fuel (index + 1) (some e)
        (list_of_elements ++ [e])

/-- Embedding of `Spider.get_elements_xpaths(webpage, xpath)`
    (spider.py:207-243): split the template on `[INDEX]` and run the
    probing loop from index 1 with the Python local `element` unassigned. -/
def get_elements_xpaths (fuel : Nat) (page : PyStr → Option Nat)
    (xpath : PyStr) : XpathsResult :=
  let path_of_elements := pySplit (str "[INDEX]") xpath
  match path_of_elements with
  | p0 :: p1 :: _ => xpathsLoop page p0 p1 fuel 1 none []
  | _ => .indexError

theorem modelCheck_template_split :
    pySplit (str "[INDEX]") (str "//ul/li[INDEX]/a") =
      [str "//ul/li", str "/a"] := by
  decide

theorem modelCheck_xpaths_empty_page :
    get_elements_xpaths 4 (fun _ => none) (str "//ul/li[INDEX]/a") =
      .unboundLocalError := by
  decide

/- ### Python floats for `_scroll_down_pages` -/

/-- A dyadic rational `m * 2^e`.  Every IEEE-754 binary64 value the scroll
    loop manipulates is such a number, so float arithmetic is modelled
    exactly: compute in the dyadics, then round to 53 significant bits. -/
structure Dy where
  m : Int
  e : Int
deriving DecidableEq

/-- Floor of the base-two logarithm, by fueled halving. -/
def log2Aux : Nat → Nat → Nat
  | 0, _ => 0
  | fuel + 1, n => if 2 ≤ n then log2Aux fuel (n / 2) + 1 else 0

/-- Number of binary digits of `n` (0 for 0). -/
def nbits (n : Nat) : Nat := if n = 0 then 0 else log2Aux n n + 1

/-- Put a dyadic in canonical form: zero is `⟨0, 0⟩`, otherwise the
    mantissa is made odd by moving factors of two into the exponent. -/
def oddifyAux : Nat → Int → Int → Dy
  | 0, m, e => ⟨m, e⟩
  | fuel + 1, m, e => if m % 2 = 0 then oddifyAux fuel (m / 2) (e + 1) else ⟨m, e⟩

/-- Canonical dyadic with value `m * 2^e`. -/
def mkDy (m e : Int) : Dy :=
  if m = 0 then ⟨0, 0⟩ else oddifyAux m.natAbs m e

/-- Round `n / 2^shift` (with `shift ≥ 1`) to the nearest integer,
    ties to even. -/
def roundHalfEvenShift (n shift : Nat) : Nat :=
  let q := n / 2 ^ shift
  let r := n % 2 ^ shift
  let half := 2 ^ (shift - 1)
  if r < half then q
  else if half < r then q + 1
  else if q % 2 = 0 then q else q + 1

/-- Round a dyadic to the nearest IEEE-754 binary64 value (round to
    nearest, ties to even; subnormals bottom out at `2^-1074`).  Overflow
    to infinity is not modelled: no value in this development leaves the
    normal range. -/
def roundDouble (d : Dy) : Dy :=
  if d.m = 0 then ⟨0, 0⟩
  else
    let n := d.m.natAbs
    let bits : Int := nbits n
    let ulp : Int := max (d.e + bits - 1 - 52) (-1074)
    if ulp ≤ d.e then mkDy d.m d.e
    else
      let q : Int := roundHalfEvenShift n (ulp - d.e).toNat
      mkDy (if d.m < 0 then -q else q) ulp

/-- Exact dyadic sum. -/
def dyAdd (a b : Dy) : Dy :=
  let e := min a.e b.e
  mkDy (a.m * 2 ^ (a.e - e).toNat + b.m * 2 ^ (b.e - e).toNat) e

/-- Exact dyadic product. -/
def dyMul (a b : Dy) : Dy := mkDy (a.m * b.m) (a.e + b.e)

/-- Value comparison of dyadics. -/
def dyLt (a b : Dy) : Bool :=
  let e := min a.e b.e
  decide (a.m * 2 ^ (a.e - e).toNat < b.m * 2 ^ (b.e - e).toNat)

/-- Value equality of dyadics, as a boolean. -/
def dyBeq (a b : Dy) : Bool :=
  let e := min a.e b.e
  decide (a.m * 2 ^ (a.e - e).toNat = b.m * 2 ^ (b.e - e).toNat)

/-- The float 0.0. -/
def dyZero : Dy := ⟨0, 0⟩

/-- The float 1.0. -/
def dyOne : Dy := ⟨1, 0⟩

/-- Float division by two (`counter /= 2`): exact halving, rounded. -/
def fdiv2 (a : Dy) : Dy := roundDouble ⟨a.m, a.e - 1⟩

/-- Float addition: exact sum, rounded. -/
def fadd (a b : Dy) : Dy := roundDouble (dyAdd a b)

/-- Float multiplication: exact product, rounded. -/
def fmul (a b : Dy) : Dy := roundDouble (dyMul a b)

/- ### `Spider._scroll_down_pages` -/

/-- One update of the pair (counter, multiplier), the first two statements
    of the scroll loop body (spider.py:283-284):
    `counter /= 2; multiplier += counter` in binary64 arithmetic. -/
def cmStep (p : Dy × Dy) : Dy × Dy :=
  let counter := fdiv2 p.1
  (counter, fadd p.2 counter)

/-- (counter, multiplier) after `n` iterations of the scroll loop,
    starting from `counter = 1`, `multiplier = 0` (spider.py:280-281). -/
def cmIter : Nat → Dy × Dy
  | 0 => (dyOne, dyZero)
  | n + 1 => cmStep (cmIter n)

/-- Embedding of the `while True` loop of `Spider._scroll_down_pages`
    (spider.py:282-301).  The browser is abstracted by two oracles indexed
    by iteration number: `heights k` is what
    `execute_script("return document.body.scrollHeight")` returns in
    iteration `k`, and `sigs k` the length of
    `execute_script("return window.performance.getEntries();")` — with
    `sigs 0` the read taken before the loop (spider.py:278).  `r` is the
    last recorded activity signal, `k` the index of the next read.
    Returns `some k` when the loop breaks after read `k`, `none` if the
    fuel runs out first. -/
def scrollLoop (sigs : Nat → Nat) (heights : Nat → Dy) :
    Nat → Nat → Nat → Dy × Dy → Dy → Option Nat
  | 0, _, _, _, _ => none
  | fuel + 1, r, k, cm, _start_y =>
    let cm' := cmStep cm
    let scroll_height := heights k
    let scroll_dist := fmul scroll_height cm'.2
    -- window.scrollTo(start_y, scroll_dist): browser side effect only
    let q := sigs k
    if q = r then some k
    else scrollLoop sigs heights fuel q (k + 1) cm' scroll_dist

/-- Embedding of `Spider._scroll_down_pages` after navigation: read the
    initial activity signal, then loop.  (The pre-loop
    `scroll_height = ... / 2` of spider.py:277 is dead state: the loop
    re-reads the height before first use.)  The unused `start_y`
    propagation mirrors spider.py:275 and 301. -/
def scroll_down_pages (sigs : Nat → Nat) (heights : Nat → Dy)
    (fuel : Nat) : Option Nat :=
  scrollLoop sigs heights fuel (sigs 0) 1 (dyOne, dyZero) dyZero

set_option maxRecDepth 100000 in
theorem modelCheck_multiplier_54 : (cmIter 54).2 = dyOne := by decide

set_option maxRecDepth 100000 in
theorem modelCheck_multiplier_7 : (cmIter 7).2 = mkDy 127 (-7) := by decide

set_option maxRecDepth 100000 in
theorem modelCheck_multiplier_below_54 :
    ∀ n, n < 54 → (cmIter n).2 = mkDy (2 ^ n - 1) (-(n : Int)) := by
  decide

/- ### Helper lemmas -/

/-- The probing loop of `get_elements_xpaths` can only raise, run out of
    fuel, or keep going: the Python local `element` is either unassigned
    (`None` was never a possible value of a successful `find_element`) or
    holds an element handle, so the `else: break` arm never fires and the
    loop never falls through to `return list_of_elements`. -/
theorem xpathsLoop_not_normal (page : PyStr → Option Nat) (pre suf : PyStr) :
    ∀ fuel index ev acc,
      (xpathsLoop page pre suf fuel index ev acc).isNormal = false
  | 0, _, _, _ => rfl
  | fuel + 1, index, ev, acc => by
    unfold xpathsLoop
    cases hp : page (pre ++ '[' :: natToStr index ++ ']' :: suf) with
    | some e =>
      simp only [hp]
      exact xpathsLoop_not_normal page pre suf fuel (index + 1) (some e)
        (acc ++ [e])
    | none =>
      simp only [hp]
      cases ev with
      | none => rfl
      | some e =>
        exact xpathsLoop_not_normal page pre suf fuel (index + 1) (some e)
          (acc ++ [e])

/-- `urljoin(base, "")` returns the base unchanged. -/
theorem urljoinM_empty_url (base : PyStr) : urljoinM base [] = base := by
  by_cases h : base.isEmpty
  · have : base = [] := by simpa using h
    subst this
    rfl
  · unfold urljoinM
    rw [if_neg (by simpa using h)]
    rfl

/-- Membership after a Python `set.add`. -/
theorem mem_setAdd {l : List PyStr} {x y : PyStr} (h : y ∈ setAdd l x) :
    y ∈ l ∨ y = x := by
  unfold setAdd at h
  by_cases hx : x ∈ l
  · rw [if_pos hx] at h
    exact Or.inl h
  · rw [if_neg hx] at h
    simpa using h

/-- Everything `sublinkStep` adds to the set avoids the `mailto` filter. -/
theorem sublinkStep_no_mailto (root : PyStr) (acc : List PyStr)
    (h : Option PyStr)
    (hacc : ∀ y ∈ acc, hasSub (str "mailto") y = false) :
    ∀ y ∈ sublinkStep root acc h, hasSub (str "mailto") y = false := by
  intro y hy
  cases h with
  | none => exact hacc y hy
  | some href =>
    unfold sublinkStep at hy
    simp only [] at hy
    by_cases he : href.isEmpty
    · rw [if_pos he] at hy
      exact hacc y hy
    · rw [if_neg he] at hy
      by_cases hc : (!(modify_verify_url root href).isEmpty &&
          !hasSub (str "mailto") (modify_verify_url root href)) = true
      · rw [if_pos hc] at hy
        rcases mem_setAdd hy with hmem | rfl
        · exact hacc y hmem
        · have := (Bool.and_eq_true _ _).mp hc
          simpa using this.2
      · rw [if_neg hc] at hy
        exact hacc y hy

/-- Folding `sublinkStep` preserves the `mailto`-free invariant. -/
theorem sublinks_fold_no_mailto (root : PyStr) :
    ∀ (hrefs : List (Option PyStr)) (acc : List PyStr),
      (∀ y ∈ acc, hasSub (str "mailto") y = false) →
      ∀ x ∈ hrefs.foldl (sublinkStep root) acc,
        hasSub (str "mailto") x = false := by
  intro hrefs
  induction hrefs with
  | nil => intro acc hacc x hx; exact hacc x hx
  | cons h t ih =>
    intro acc hacc x hx
    exact ih (sublinkStep root acc h)
      (sublinkStep_no_mailto root acc h hacc) x hx

/-- A hexadecimal digit character is never a colon. -/
theorem hexDigitChar_ne_colon (k : Nat) : hexDigitChar k ≠ ':' := by
  unfold hexDigitChar
  have hk : k % 16 < 16 := Nat.mod_lt _ (by omega)
  revert hk
  generalize k % 16 = r
  intro hk
  interval_cases r <;> decide

/-- Percent-encoded bytes contain no colon. -/
theorem colon_not_in_pctByte (b : Nat) (x : Char) (hx : x ∈ pctByte b) :
    x ≠ ':' := by
  unfold pctByte at hx
  simp only [List.mem_cons, List.not_mem_nil, or_false] at hx
  rcases hx with rfl | rfl | rfl
  · decide
  · exact hexDigitChar_ne_colon _
  · exact hexDigitChar_ne_colon _

/-- `quote` never emits a colon: `:` is not in the safe set, and its
    percent-encoding consists of `%` and hex digits. -/
theorem colon_not_in_pyQuoteChar (c x : Char) (hx : x ∈ pyQuoteChar c) :
    x ≠ ':' := by
  unfold pyQuoteChar at hx
  by_cases hs : isQuoteSafe c = true
  · rw [if_pos hs] at hx
    simp only [List.mem_singleton] at hx
    subst hx
    intro hc
    subst hc
    revert hs
    decide
  · rw [if_neg hs] at hx
    rw [List.mem_flatten] at hx
    obtain ⟨l, hl, hxl⟩ := hx
    obtain ⟨b, _, rfl⟩ := List.mem_map.mp hl
    exact colon_not_in_pctByte b x hxl

/-- The character-wise quoted form of any string contains no colon. -/
theorem colon_not_in_pyQuoteJoin (url : PyStr) (x : Char)
    (hx : x ∈ pyQuoteJoin url) : x ≠ ':' := by
  unfold pyQuoteJoin at hx
  rw [List.mem_flatten] at hx
  obtain ⟨l, hl, hxl⟩ := hx
  obtain ⟨c, _, rfl⟩ := List.mem_map.mp hl
  exact colon_not_in_pyQuoteChar c x hxl

/-- ASCII lowercasing cannot produce a colon from anything but a colon. -/
theorem lowerChar_eq_colon {c : Char} (h : lowerChar c = ':') : c = ':' := by
  unfold lowerChar at h
  by_cases hc : 65 ≤ c.toNat ∧ c.toNat ≤ 90
  · rw [if_pos hc] at h
    exfalso
    obtain ⟨h1, h2⟩ := hc
    revert h
    generalize c.toNat = t at h1 h2
    intro h
    interval_cases t <;> exact absurd h (by decide)
  · rwa [if_neg hc] at h

/-- A recognised protocol prefix forces a colon into the string. -/
theorem schemeRest_colon {t rest : PyStr} (h : schemeRest t = some rest) :
    ':' ∈ t := by
  unfold schemeRest at h
  split_ifs at h with h1 h2 h3
  · exact ((List.isPrefixOf_iff_prefix.mp h1).sublist.subset) (by decide)
  · exact ((List.isPrefixOf_iff_prefix.mp h2).sublist.subset) (by decide)
  · exact ((List.isPrefixOf_iff_prefix.mp h3).sublist.subset) (by decide)

/-- A string `validators.url` accepts contains a colon. -/
theorem validators_url_colon {s : PyStr} (h : validators_url s = true) :
    ':' ∈ s := by
  unfold validators_url at h
  simp only [] at h
  cases hsr : schemeRest (s.map lowerChar) with
  | none => rw [hsr] at h; cases h
  | some rest =>
    have hm : ':' ∈ s.map lowerChar := schemeRest_colon hsr
    obtain ⟨c, hc, hlc⟩ := List.mem_map.mp hm
    have : c = ':' := lowerChar_eq_colon hlc
    subst this
    exact hc

/-- The quoted form of any string fails `validators.url`. -/
theorem validators_url_quoted_false (url : PyStr) :
    validators_url (pyQuoteJoin url) = false := by
  cases h : validators_url (pyQuoteJoin url) with
  | false => rfl
  | true =>
    exact absurd rfl
      (colon_not_in_pyQuoteJoin url ':' (validators_url_colon h))

/- ### Claim theorems -/

/-- C1.  The claim says `get_elements_xpaths` returns a sequence of length
    N for N contiguous matches and an empty sequence when index 1 has no
    match.  In fact the call never returns a list at all: the
    `except NoSuchElementException: pass` handler never assigns
    `element = None`, so the `else: break` arm is unreachable — a run
    either raises `UnboundLocalError` (first probe misses, as in the
    concrete empty-page conjunct) or re-appends the stale previous handle
    and loops forever (the first conjunct: no fuel ever suffices for a
    normal return). -/
theorem enumerator_never_returns_a_list :
    (∀ fuel page xpath, (get_elements_xpaths fuel page xpath).isNormal = false)
    ∧ get_elements_xpaths 5 (fun _ => none) (str "//ul/li[INDEX]") =
        XpathsResult.unboundLocalError := by
  refine ⟨?_, by decide⟩
  intro fuel page xpath
  unfold get_elements_xpaths
  cases hsp : pySplit (str "[INDEX]") xpath with
  | nil => rfl
  | cons p0 ps =>
    cases ps with
    | nil => rfl
    | cons p1 rest => exact xpathsLoop_not_normal page p0 p1 fuel 1 none []

/-- C4.  The claim says a locator miss inside `get_elements_xpaths` is
    handled locally as the loop's stop condition and never surfaces to the
    caller.  On a page whose element exists at index 2 but not at index 1,
    the very first miss instead escapes as `UnboundLocalError`: the
    `except` clause swallows `NoSuchElementException` without binding
    `element`, and the subsequent `element != None` test reads the
    unassigned local. -/
theorem locator_miss_escapes_as_unbound_local_error :
    get_elements_xpaths 5
      (fun p => if p = str "//ul/li[2]" then some 7 else none)
      (str "//ul/li[INDEX]") = XpathsResult.unboundLocalError := by
  decide

/-- C2 (amended).  A URL that `validators.url` accepts is returned by
    `modify_verify_url` unchanged — query string and fragment included —
    for every root; it equals the query/fragment-stripped form only when
    there was nothing to strip. -/
theorem valid_url_returned_unchanged (root u : PyStr)
    (h : validators_url u = true) : modify_verify_url root u = u := by
  unfold modify_verify_url
  rw [h]
  rfl

/-- Witness for C2's theorem at root `https://example.com/shop` and
    `u = https://example.com/item?ref=1#top`. -/
theorem valid_url_returned_unchanged_witness :
    validators_url (str "https://example.com/item?ref=1#top") = true ∧
    modify_verify_url (str "https://example.com/shop")
        (str "https://example.com/item?ref=1#top") =
      str "https://example.com/item?ref=1#top" :=
  ⟨by decide,
   valid_url_returned_unchanged (str "https://example.com/shop")
     (str "https://example.com/item?ref=1#top") (by decide)⟩

/-- Counterexample to C2 as stated: for the well-formed absolute URL
    `https://example.com/item?ref=1#top`, `modify_verify_url` keeps the
    query and fragment, so the result differs from `strip(u)`
    (`https://example.com/item`). -/
theorem valid_url_not_stripped_counterexample :
    modify_verify_url (str "https://example.com/shop")
        (str "https://example.com/item?ref=1#top") =
      str "https://example.com/item?ref=1#top" ∧
    stripUrl (str "https://example.com/item?ref=1#top") =
      str "https://example.com/item" ∧
    decide (modify_verify_url (str "https://example.com/shop")
        (str "https://example.com/item?ref=1#top") =
      stripUrl (str "https://example.com/item?ref=1#top")) = false := by
  refine ⟨by decide, by decide, by decide⟩

/-- C3 (amended).  For root `https://example.com/shop` and raw href
    `/item?ref=1#top`, `modify_verify_url` first percent-quotes the href
    character by character, turning `?`, `=` and `#` into `%3F`, `%3D` and
    `%23`; the query and fragment are thereby folded into the path and
    survive the later strip, so the result is
    `https://example.com/item%3Fref%3D1%23top`, not
    `https://example.com/item`. -/
theorem relative_query_href_is_percent_encoded :
    modify_verify_url (str "https://example.com/shop")
        (str "/item?ref=1#top") =
      str "https://example.com/item%3Fref%3D1%23top" := by
  decide

/-- Counterexample to C3 as stated: the claimed output
    `https://example.com/item` is not what the code returns. -/
theorem relative_query_href_counterexample :
    decide (modify_verify_url (str "https://example.com/shop")
        (str "/item?ref=1#top") = str "https://example.com/item") = false := by
  decide

/-- C7 (amended).  `modify_verify_url(root, "")` is not Absent: the empty
    string fails validation, quotes to itself, and `urljoin(root, "")`
    returns the root, so the call returns the query/fragment-stripped root
    whenever that strip validates (empty only otherwise).  The empty-input
    guard lives in the caller instead: `get_all_sublinks_from_soup` skips
    empty and absent hrefs before normalization, as the second conjunct
    shows.  (A `None` raw input is outside the string domain: iterating it
    for quoting raises `TypeError`.) -/
theorem empty_href_resolves_to_stripped_root (root : PyStr) :
    modify_verify_url root [] =
      (if validators_url (stripUrl root) then stripUrl root else []) ∧
    get_all_sublinks_from_soup root [some [], none] = [] := by
  constructor
  · simp only [modify_verify_url, stripUrl,
      show validators_url [] = false from by decide,
      show pyQuoteJoin [] = ([] : PyStr) from rfl, urljoinM_empty_url,
      Bool.not_false, Bool.false_eq_true, if_true, if_false]
  · rfl

/-- Counterexample to C7 as stated: with root `https://example.com/shop`,
    the empty raw input yields the root back, not the Absent empty
    string. -/
theorem empty_href_counterexample :
    modify_verify_url (str "https://example.com/shop") [] =
      str "https://example.com/shop" ∧
    decide (modify_verify_url (str "https://example.com/shop") [] =
      ([] : PyStr)) = false := by
  exact ⟨by decide, by decide⟩

/-- C8.  Tree-based link extraction never emits a link containing
    `mailto`: the guard of spider.py:152 filters on the normalized href.
    In particular the raw href `mailto:a@b.com` — whose normalization
    against root `https://example.com/shop` succeeds as
    `https://example.com/mailto%3Aa%40b.com` but keeps the `mailto`
    substring — is excluded, as the second conjunct shows concretely. -/
theorem mailto_hrefs_excluded (root : PyStr) (hrefs : List (Option PyStr))
    (x : PyStr) :
    (x ∈ get_all_sublinks_from_soup root hrefs →
      hasSub (str "mailto") x = false) ∧
    get_all_sublinks_from_soup (str "https://example.com/shop")
      [some (str "mailto:a@b.com")] = [] := by
  refine ⟨?_, by decide⟩
  intro hx
  unfold get_all_sublinks_from_soup at hx
  exact sublinks_fold_no_mailto root hrefs []
    (fun y hy => absurd hy (List.not_mem_nil y)) x hx

/-- Witness for C8's membership implication: a clean link that does reach
    the output set indeed carries no `mailto`. -/
theorem mailto_hrefs_excluded_witness :
    hasSub (str "mailto") (str "https://ok.com/a") = false :=
  (mailto_hrefs_excluded (str "https://x.com")
      [some (str "https://ok.com/a")] (str "https://ok.com/a")).1 (by decide)

/-- Invariant of the image loop: among the output entries whose `src`
    equals a fixed value, the loop contributes (beyond what the
    accumulator already holds) nothing when that value is already in
    `temp_links`, and otherwise exactly the first remaining tag bearing
    it.  The hypothesis records that every accumulated pair's `src` has
    been seen, which is what makes `setAddPair` a plain append. -/
theorem imagesLoop_filter_by_src (src : Option PyStr) :
    ∀ (imgs : List (Option PyStr × Option PyStr))
      (temp_links : List (Option PyStr))
      (temp_set : List (Option PyStr × Option PyStr)),
      (∀ p ∈ temp_set, p.2 ∈ temp_links) →
      (imagesLoop imgs temp_links temp_set).filter (fun p => p.2 == src) =
        temp_set.filter (fun p => p.2 == src) ++
          (if src ∈ temp_links then []
           else (imgs.find? (fun p => p.2 == src)).toList) := by
  intro imgs
  induction imgs with
  | nil =>
    intro temp_links temp_set hinv
    by_cases h : src ∈ temp_links <;> simp [imagesLoop, h]
  | cons hd rest ih =>
    obtain ⟨alt, s⟩ := hd
    intro temp_links temp_set hinv
    have hstep : imagesLoop ((alt, s) :: rest) temp_links temp_set =
        if s ∈ temp_links then imagesLoop rest temp_links temp_set
        else imagesLoop rest (temp_links ++ [s])
          (setAddPair temp_set (alt, s)) := rfl
    by_cases hs : s ∈ temp_links
    · rw [hstep, if_pos hs, ih temp_links temp_set hinv]
      by_cases hsrc : src ∈ temp_links
      · simp [hsrc]
      · have hneq : (s == src) = false := by
          rw [beq_eq_false_iff_ne]
          intro h
          exact hsrc (h ▸ hs)
        simp [hsrc, List.find?_cons, hneq]
    · have hadd : setAddPair temp_set (alt, s) = temp_set ++ [(alt, s)] := by
        unfold setAddPair
        rw [if_neg]
        intro hmem
        exact hs (hinv _ hmem)
      have hinv2 : ∀ p ∈ setAddPair temp_set (alt, s), p.2 ∈ temp_links ++ [s] := by
        intro p hp
        rw [hadd] at hp
        rcases List.mem_append.mp hp with h | h
        · exact List.mem_append.mpr (Or.inl (hinv p h))
        · simp only [List.mem_singleton] at h
          subst h
          simp
      rw [hstep, if_neg hs,
        ih (temp_links ++ [s]) (setAddPair temp_set (alt, s)) hinv2,
        hadd, List.filter_append]
      by_cases hssrc : s = src
      · subst hssrc
        simp [hs, List.find?_cons, List.mem_append]
      · have hneq : (s == src) = false := beq_eq_false_iff_ne.mpr hssrc
        have hmm : (src ∈ temp_links ++ [s]) = (src ∈ temp_links) := by
          simp only [List.mem_append, List.mem_singleton, eq_iff_iff]
          constructor
          · rintro (h | h)
            · exact h
            · exact absurd h.symm hssrc
          · exact Or.inl
        by_cases hsrc : src ∈ temp_links <;>
          simp [hsrc, hmm, hneq, List.find?_cons]

/-- C9.  For every document, image extraction deduplicates by `src`
    alone: for any `src` value, the output entries bearing that `src` are
    exactly the first `img` tag with that `src` in document order — one
    entry when the `src` occurs at all (so two tags with identical `src`
    and different `alt` text, anywhere in the document, contribute
    exactly the first encountered (alt, src) pair) and none otherwise. -/
theorem images_dedup_by_src_keeps_first
    (imgs : List (Option PyStr × Option PyStr)) (src : Option PyStr) :
    (get_all_images_from_soup imgs).filter (fun p => p.2 == src) =
      (imgs.find? (fun p => p.2 == src)).toList := by
  unfold get_all_images_from_soup
  rw [imagesLoop_filter_by_src src imgs [] []
    (fun p hp => absurd hp (List.not_mem_nil p))]
  simp

/-- Model check for C9's scenario: a duplicate-`src` pair amid other
    `img` tags keeps only its first occurrence, in document order. -/
theorem modelCheck_images_duplicate_amid_others :
    get_all_images_from_soup
      [(some (str "x"), some (str "/logo.png")),
       (some (str "a"), some (str "/a.png")),
       (some (str "b"), some (str "/a.png")),
       (some (str "y"), some (str "/icon.png"))] =
      [(some (str "x"), some (str "/logo.png")),
       (some (str "a"), some (str "/a.png")),
       (some (str "y"), some (str "/icon.png"))] := by
  decide

/-- C10.  The `else: return url` arm of `modify_verify_url` (reached when
    the per-character quoted form validates although the raw input did
    not) is unreachable: quoting with `safe='/'` encodes `:` as `%3A`, so
    the quoted string never contains a colon and can never carry the
    `scheme://` part `validators.url` requires.  Consequently every call
    either returns a raw valid URL unchanged or proceeds to the
    urljoin-based resolution (returning the resolved URL or the empty
    string). -/
theorem quoted_rescue_branch_unreachable :
    (∀ url, validators_url (pyQuoteJoin url) = false) ∧
    (∀ root url, modify_verify_url root url =
      if validators_url url then url else urljoinResolution root url) := by
  refine ⟨validators_url_quoted_false, ?_⟩
  intro root url
  unfold modify_verify_url urljoinResolution
  by_cases h : validators_url url = true
  · simp [h]
  · simp [h, validators_url_quoted_false url]

/-- If the scroll loop stops after read `n` (starting from read index `k`
    with the recorded signal being read `k - 1`), then read `n` equalled
    read `n - 1` and every earlier in-loop comparison differed. -/
theorem scrollLoop_sound (sigs : Nat → Nat) (heights : Nat → Dy) :
    ∀ fuel k cm sy n, 1 ≤ k →
      scrollLoop sigs heights fuel (sigs (k - 1)) k cm sy = some n →
      k ≤ n ∧ sigs n = sigs (n - 1) ∧
        ∀ m, m < n → k ≤ m → sigs m ≠ sigs (m - 1) := by
  intro fuel
  induction fuel with
  | zero => intro k cm sy n hk h; cases h
  | succ f ih =>
    intro k cm sy n hk h
    simp only [scrollLoop] at h
    by_cases hq : sigs k = sigs (k - 1)
    · rw [if_pos hq] at h
      injection h with h
      subst h
      exact ⟨le_refl _, hq, fun m hm hkm => absurd hm (by omega)⟩
    · rw [if_neg hq] at h
      obtain ⟨h1, h2, h3⟩ := ih (k + 1) _ _ n (by omega) h
      refine ⟨by omega, h2, ?_⟩
      intro m hm hkm
      by_cases hmk : m = k
      · subst hmk; exact hq
      · exact h3 m hm (by omega)

/-- Conversely, if read `n` is the first in-loop read equal to its
    predecessor and the fuel reaches it, the loop stops exactly there. -/
theorem scrollLoop_complete (sigs : Nat → Nat) (heights : Nat → Dy) :
    ∀ fuel k cm sy n, 1 ≤ k → k ≤ n → n - k < fuel →
      sigs n = sigs (n - 1) →
      (∀ m, m < n → k ≤ m → sigs m ≠ sigs (m - 1)) →
      scrollLoop sigs heights fuel (sigs (k - 1)) k cm sy = some n := by
  intro fuel
  induction fuel with
  | zero => intro k cm sy n hk hkn hf heq hne; omega
  | succ f ih =>
    intro k cm sy n hk hkn hf heq hne
    simp only [scrollLoop]
    by_cases hkn' : k = n
    · subst hkn'
      rw [if_pos heq]
    · rw [if_neg (hne k (by omega) (le_refl k))]
      exact ih (k + 1) _ _ n (by omega) (by omega) (by omega) heq
        (fun m hm hkm => hne m hm (by omega))

/-- C5.  The scroll loop of `_scroll_down_pages` terminates exactly when a
    newly read activity signal equals the previously recorded one: if the
    run stops after read `n`, then reads `n` and `n - 1` were equal and
    every earlier comparison differed (first conjunct); if read `n` is the
    first repeat and the fuel bound reaches it, the run stops exactly
    after read `n` (second conjunct); and with the constant signal 12 —
    consecutive reads `[12, 12]` — the loop stops right after the second
    read (third conjunct). -/
theorem scroll_loop_stops_on_equal_consecutive_signals
    (sigs : Nat → Nat) (heights : Nat → Dy) (n fuel : Nat) :
    (scroll_down_pages sigs heights fuel = some n →
      1 ≤ n ∧ sigs n = sigs (n - 1) ∧
        ∀ m, m < n → 1 ≤ m → sigs m ≠ sigs (m - 1)) ∧
    (1 ≤ n → n - 1 < fuel → sigs n = sigs (n - 1) →
      (∀ m, m < n → 1 ≤ m → sigs m ≠ sigs (m - 1)) →
      scroll_down_pages sigs heights fuel = some n) ∧
    scroll_down_pages (fun _ => 12) heights 3 = some 1 := by
  refine ⟨?_, ?_, rfl⟩
  · intro h
    exact scrollLoop_sound sigs heights fuel 1 (dyOne, dyZero) dyZero n
      (le_refl 1) h
  · intro h1 h2 h3 h4
    exact scrollLoop_complete sigs heights fuel 1 (dyOne, dyZero) dyZero n
      (le_refl 1) h1 h2 h3 h4

/-- Witness for C5: with reads 5, 6, 6 the loop stops after read 2, the
    first read that repeats its predecessor. -/
theorem scroll_loop_stops_witness :
    scroll_down_pages (fun i => if i = 0 then 5 else 6) (fun _ => dyZero) 9 =
      some 2 :=
  ((scroll_loop_stops_on_equal_consecutive_signals
      (fun i => if i = 0 then 5 else 6) (fun _ => dyZero) 2 9).2.1)
    (by decide) (by decide) (by decide) (by decide)

set_option maxRecDepth 1000000 in
set_option maxHeartbeats 2000000 in
/-- C6 (amended).  Through iteration 53 the cumulative multiplier is
    exactly `1 - 2^(-n)` — binary64 arithmetic is exact there — so on that
    range the sequence is strictly increasing and strictly below 1.  From
    iteration 54 on the claim fails: the rounded sum hits exactly 1.0 (see
    the counterexample), so the target offset then equals the full page
    height instead of only approaching it. -/
theorem scroll_multiplier_is_geometric_below_54 (n : Nat) (h : n ≤ 53) :
    (cmIter n).2 = mkDy (2 ^ n - 1) (-(n : Int)) ∧
    dyLt (cmIter n).2 dyOne = true ∧
    dyLt (cmIter n).2 (cmIter (n + 1)).2 = true := by
  have H : ∀ m, m < 54 →
      (cmIter m).2 = mkDy (2 ^ m - 1) (-(m : Int)) ∧
      dyLt (cmIter m).2 dyOne = true ∧
      dyLt (cmIter m).2 (cmIter (m + 1)).2 = true := by decide
  exact H n (by omega)

/-- Witness for C6's amended theorem at `n = 7`:
    the multiplier is `127/128`. -/
theorem scroll_multiplier_is_geometric_below_54_witness :
    (cmIter 7).2 = mkDy (2 ^ 7 - 1) (-(7 : Int)) ∧
    dyLt (cmIter 7).2 dyOne = true ∧
    dyLt (cmIter 7).2 (cmIter 8).2 = true :=
  scroll_multiplier_is_geometric_below_54 7 (by omega)

set_option maxRecDepth 1000000 in
/-- Counterexample to C6 as stated: at iteration 54 the float multiplier
    is exactly 1.0 — the exact sum `1 - 2^(-54)` needs 54 significant bits
    and round-to-nearest-even rounds it up to 1.0 — so the multiplier is
    neither `1 - 2^(-54)` nor strictly below 1. -/
theorem scroll_multiplier_reaches_one_counterexample :
    (cmIter 54).2 = dyOne ∧
    dyLt (cmIter 54).2 dyOne = false ∧
    dyBeq (cmIter 54).2 (mkDy (2 ^ 54 - 1) (-54)) = false := by
  exact ⟨by decide, by decide, by decide⟩
